import Mathlib

/-!
Shallow embedding of the notification delivery pipeline of a blog platform
(NestJS + TypeORM + Redis backend).  Timestamps are modelled as `Int`
milliseconds since the epoch, database ids as `String`, and the store's
auto-increment primary key as an explicit counter carried in the store
state.  Fallible TypeScript code (thrown exceptions) is modelled with
`Except String`; mutations of persistent state are modelled by explicit
state passing, with the state component returned even when the operation
throws, because a database row committed before a later `throw` stays
committed.
-/

namespace BlogNotification

/-- JavaScript truthiness of an optional string: `undefined`/`null` and the
empty string are falsy, every other string is truthy. -/
def strTruthy : Option String → Bool
  | some s => s ≠ ""
  | none => false

/-- JavaScript `x || y` on optional strings: returns `x` when truthy,
otherwise `y`. -/
def jsOrStr (x y : Option String) : Option String :=
  if strTruthy x then x else y

/-- `User` entity (src/backend/src/auth/entities/user.entity.ts):
uuid id, unique email, username, `createdAt` timestamp. -/
structure User where
  id : String
  email : String
  username : String
  createdAt : Int
deriving DecidableEq, Repr

/-- Author as embedded in a blog row after the `author` relation is loaded;
same shape as `User` (id, email, username, timestamps). -/
structure Author where
  id : String
  email : String
  username : String
  createdAt : Int
  updatedAt : Int
deriving DecidableEq, Repr

/-- `Blog` entity.  `author` is the TypeORM relation, present only when the
relation was loaded (`Option`); `authorId` is the foreign-key column,
modelled as `Option String` because the defensive code in
`NotificationService.createMarker` and `safePublishMarker` treats it as
possibly falsy (missing or empty). -/
structure Blog where
  id : String
  title : String
  content : String
  createdAt : Int
  updatedAt : Int
  authorId : Option String
  author : Option Author
deriving DecidableEq, Repr

/-- `NotificationMarker` entity
(src/backend/src/notification/entities/notification-marker.entity.ts):
`markerVersion` is the auto-generated integer primary key; `blog` is the
eager ManyToOne relation. -/
structure NotificationMarker where
  markerVersion : Int
  blogId : String
  blog : Blog
  createdAt : Int
deriving DecidableEq, Repr

/-- `UserNotificationState` entity (read cursor):
primary key `userId` and the `lastSeenMarkerVersion` int column
(default 0).  The `user` relation and the DB-managed `updatedAt` column
are omitted: no code under scrutiny reads them. -/
structure UserNotificationState where
  userId : String
  lastSeenMarkerVersion : Int
deriving DecidableEq, Repr

/-- `BlogCreatedEvent` queue item
(src/backend/src/notification/queue/notification-queue.service.ts). -/
structure BlogCreatedEvent where
  blogId : String
  title : String
  authorId : Option String
  createdAt : Int
deriving DecidableEq, Repr

/-- `CreateBlogInput` DTO (title and content). -/
structure CreateBlogInput where
  title : String
  content : String
deriving DecidableEq, Repr

/-- Dynamic payload handed to `safePublishMarker` / `safePublishToRedis`
and received by the subscription layer.  The TypeScript values are
loosely typed (`any` once they cross PubSub/Redis), so every field the
validation code inspects is optional: `markerVersion = none` models a
value that is not a number, `createdAt = none` models a value that is not
a `Date`, `blog = none` models a missing blog object. -/
structure MarkerPayload where
  markerVersion : Option Int
  blog : Option Blog
  createdAt : Option Int
  cursor : Option Int
deriving DecidableEq, Repr

/-- `NotificationMarkerPayload` GraphQL type as produced by the
subscription resolve step; `blog` is `Option` because the default payload
carries `null` there. -/
structure NotificationMarkerPayload where
  markerVersion : Int
  blog : Option Blog
  createdAt : Int
  cursor : Int
deriving DecidableEq, Repr

/-- `UnreadCountResponse` DTO returned by the
`updateLastSeenMarkerVersion` mutation. -/
structure UnreadCountResponse where
  count : Nat
  lastSeenMarkerVersion : Int
deriving DecidableEq, Repr

/-- The marker table together with its auto-increment sequence.
`nextVersion` is the value the next inserted row will receive; the
database assigns it atomically with the insert. -/
structure MarkerStore where
  nextVersion : Int
  markers : List NotificationMarker
deriving DecidableEq, Repr

/-- `userStateRepository.findOne(\x7b where: \x7b userId \x7d \x7d)`. -/
def findState (cs : List UserNotificationState) (uid : String) :
    Option UserNotificationState :=
  cs.find? (fun s => s.userId = uid)

/-- `userStateRepository.save`: upsert by the `userId` primary key
(replace the existing row or append a new one). -/
def saveState : List UserNotificationState → UserNotificationState →
    List UserNotificationState
  | [], s => [s]
  | t :: ts, s => if t.userId = s.userId then s :: ts else t :: saveState ts s

/-- Lazy read of a user's cursor row: return the existing row, or create
one with `lastSeenMarkerVersion = 0` (the shared prologue of
`getUnreadMarkers`, `getUserState` and `getUnreadCount`). -/
def getOrCreateState (cs : List UserNotificationState) (uid : String) :
    UserNotificationState × List UserNotificationState :=
  match findState cs uid with
  | some s => (s, cs)
  | none =>
    let s : UserNotificationState := { userId := uid, lastSeenMarkerVersion := 0 }
    (s, saveState cs s)

/-- `userRepository.findOne(\x7b where: \x7b id \x7d \x7d)`. -/
def findUser (us : List User) (uid : String) : Option User :=
  us.find? (fun u => u.id = uid)

/-- `NotificationService.markAsSeen` (notification.service.ts:431-450):
if no cursor row exists, create one at exactly `markerVersion`;
otherwise update the row to `max(current, markerVersion)`.  Returns the
saved row and the updated cursor store. -/
def markAsSeen (cs : List UserNotificationState) (user : User)
    (markerVersion : Int) :
    UserNotificationState × List UserNotificationState :=
  match findState cs user.id with
  | none =>
    let s : UserNotificationState :=
      { userId := user.id, lastSeenMarkerVersion := markerVersion }
    (s, saveState cs s)
  | some s =>
    let s' : UserNotificationState :=
      { userId := user.id,
        lastSeenMarkerVersion := max s.lastSeenMarkerVersion markerVersion }
    (s', saveState cs s')

/-- `NotificationService.getUnreadCount` (notification.service.ts:468-513):
lazily create the cursor row, re-read the user from the database
(returning 0 if the user row is gone), then count the markers whose
`markerVersion` exceeds the stored cursor and whose blog was created
strictly after the user's registration time minus a 1 second buffer.
The `instanceof Date` branch collapses in the embedding because
timestamps are already `Int`. -/
def getUnreadCount (ms : MarkerStore) (cs : List UserNotificationState)
    (us : List User) (user : User) : Nat × List UserNotificationState :=
  let r := getOrCreateState cs user.id
  match findUser us user.id with
  | none => (0, r.2)
  | some freshUser =>
    let userCreatedAt := freshUser.createdAt - 1000
    (ms.markers.countP (fun m =>
      decide (r.1.lastSeenMarkerVersion < m.markerVersion ∧
        userCreatedAt < m.blog.createdAt)), r.2)

/-- `AuthResolver.updateLastSeenMarkerVersion` (auth.resolver.ts:70-83):
mark the version as seen, then recompute the unread count on the updated
state, returning both. -/
def updateLastSeenMarkerVersion (ms : MarkerStore)
    (cs : List UserNotificationState) (us : List User) (user : User)
    (markerVersion : Int) :
    UnreadCountResponse × List UserNotificationState :=
  let r1 := markAsSeen cs user markerVersion
  let r2 := getUnreadCount ms r1.2 us user
  ({ count := r2.1, lastSeenMarkerVersion := r1.1.lastSeenMarkerVersion }, r2.2)

/-- Insert a marker into a list kept descending by `markerVersion`. -/
def insertByVersionDesc (m : NotificationMarker) :
    List NotificationMarker → List NotificationMarker
  | [] => [m]
  | x :: xs =>
    if x.markerVersion ≤ m.markerVersion then m :: x :: xs
    else x :: insertByVersionDesc m xs

/-- `ORDER BY marker.markerVersion DESC`. -/
def sortByVersionDesc : List NotificationMarker → List NotificationMarker
  | [] => []
  | x :: xs => insertByVersionDesc x (sortByVersionDesc xs)

/-- Insert a marker into a list kept ascending by `markerVersion`. -/
def insertByVersionAsc (m : NotificationMarker) :
    List NotificationMarker → List NotificationMarker
  | [] => [m]
  | x :: xs =>
    if m.markerVersion ≤ x.markerVersion then m :: x :: xs
    else x :: insertByVersionAsc m xs

/-- `ORDER BY markerVersion ASC`. -/
def sortByVersionAsc : List NotificationMarker → List NotificationMarker
  | [] => []
  | x :: xs => insertByVersionAsc x (sortByVersionAsc xs)

/-- The list is sorted descending by `markerVersion`. -/
def VersionSortedDesc (l : List NotificationMarker) : Prop :=
  l.Pairwise (fun a b => b.markerVersion ≤ a.markerVersion)

/-- `NotificationService.getAllMarkers` (notification.service.ts:391-429):
re-read the user from the database (empty result if gone), subtract the
1 second buffer from the fresh `createdAt`, and return the markers whose
blog was created strictly after that cutoff, descending by version.
(`freshUser.createdAt` is a `Date` object in TypeScript, which is always
truthy, so the falsy guard only fires for a missing user row.) -/
def getAllMarkers (ms : MarkerStore) (us : List User) (user : User) :
    List NotificationMarker :=
  match findUser us user.id with
  | none => []
  | some freshUser =>
    let userCreatedAt := freshUser.createdAt - 1000
    sortByVersionDesc
      (ms.markers.filter (fun m => decide (userCreatedAt < m.blog.createdAt)))

/-- `NotificationService.getUnreadMarkers` (notification.service.ts:363-389):
lazily create the cursor row, then return every marker with
`markerVersion > lastSeenMarkerVersion`, ascending by version.  No
registration-horizon filter is applied here. -/
def getUnreadMarkers (ms : MarkerStore) (cs : List UserNotificationState)
    (user : User) : List NotificationMarker × List UserNotificationState :=
  let r := getOrCreateState cs user.id
  (sortByVersionAsc
    (ms.markers.filter (fun m =>
      decide (r.1.lastSeenMarkerVersion < m.markerVersion))), r.2)

/-- `NotificationService.safePublishMarker`
(notification.service.ts:201-247): validate the payload — the checks and
their order follow the source — and publish to the local PubSub on
success.  The local `pubSub.publish` call is wrapped in a try/catch that
re-throws, so a publish failure would also surface; the in-memory PubSub
itself does not fail, so success is modelled as `.ok`. -/
def safePublishMarker (p : Option MarkerPayload) : Except String Unit :=
  match p with
  | none => Except.error "Cannot publish null or undefined payload"
  | some payload =>
    match payload.markerVersion with
    | none => Except.error "Invalid markerVersion. Must be a positive number."
    | some v =>
      if v ≤ 0 then Except.error "Invalid markerVersion. Must be a positive number."
      else
        match payload.blog with
        | none => Except.error "Invalid blog: must be a valid Blog object"
        | some blog =>
          if blog.id = "" then Except.error "Invalid blog: missing id field"
          else if strTruthy (jsOrStr (blog.author.map (fun a => a.id)) blog.authorId) = false then
            Except.error "Invalid blog: missing author information - required for notification filtering"
          else
            match payload.createdAt with
            | none => Except.error "Invalid createdAt: must be a Date object"
            | some _ => Except.ok ()

/-- `NotificationService.safePublishToRedis`
(notification.service.ts:254-296): serialize and publish to the Redis
channel; every error is caught, logged and swallowed, so the operation
is total.  The Redis channel is modelled as the list of payloads
published so far (most recent first). -/
def safePublishToRedis (p : Option MarkerPayload)
    (channel : List MarkerPayload) : List MarkerPayload :=
  match p with
  | none => channel
  | some payload => payload :: channel

/-- The publish pipeline as run by `createMarker`: `safePublishMarker`
first (throwing on an invalid payload), and only on success the
never-throwing Redis publish. -/
def publishMarkerAndRedis (p : Option MarkerPayload)
    (channel : List MarkerPayload) : Except String (List MarkerPayload) :=
  match safePublishMarker p with
  | Except.error e => Except.error e
  | Except.ok _ => Except.ok (safePublishToRedis p channel)

/-- The claim-side validity predicate for the publish boundary, written
from the spec: a positive numeric version, a blog object with a
non-empty id, an author identifier resolvable from `blog.author.id` or
`blog.authorId`, and a `Date` creation timestamp. -/
def validPublishPayload (p : Option MarkerPayload) : Prop :=
  ∃ payload, p = some payload ∧
    (∃ v, payload.markerVersion = some v ∧ 0 < v) ∧
    (∃ b, payload.blog = some b ∧ b.id ≠ "" ∧
      strTruthy (jsOrStr (b.author.map (fun a => a.id)) b.authorId) = true) ∧
    (∃ t, payload.createdAt = some t)

/-- `markerRepository.findOne(\x7b where: \x7b markerVersion \x7d \x7d)`. -/
def findByVersion (ms : MarkerStore) (v : Int) : Option NotificationMarker :=
  ms.markers.find? (fun m => m.markerVersion = v)

/-- Tail of `NotificationService.createMarker` once the re-read marker and
its loaded author are at hand: set `authorId` on the blog when it is
falsy (the in-memory fix-up at notification.service.ts:337-339), build
the payload, and publish through `safePublishMarker` (whose error
propagates).  `safePublishToRedis` runs after and never throws; the
Redis channel is modelled separately. -/
def finishMarker (m : NotificationMarker) (author : Author) :
    Except String NotificationMarker :=
  let blog :=
    if strTruthy m.blog.authorId then m.blog
    else { m.blog with authorId := some author.id }
  let payload : MarkerPayload :=
    { markerVersion := some m.markerVersion, blog := some blog,
      createdAt := some m.createdAt, cursor := some m.markerVersion }
  (safePublishMarker (some payload)).map (fun _ => { m with blog := blog })

/-- The re-read phase of `createMarker` after the row was saved:
`findOne` the marker with its blog and author relations; if the author
relation is missing, retry the read once (deterministic in the
embedding, so the retry sees the same state) and fail hard if it is
still missing. -/
def createMarkerLoad (ms' : MarkerStore) (v : Int) :
    Except String NotificationMarker :=
  match findByVersion ms' v with
  | none => Except.error "Failed to load marker with blog"
  | some markerWithBlog =>
    match markerWithBlog.blog.author with
    | some author => finishMarker markerWithBlog author
    | none =>
      match findByVersion ms' v with
      | some reloaded =>
        match reloaded.blog.author with
        | some author2 => finishMarker { markerWithBlog with blog := reloaded.blog } author2
        | none => Except.error "Failed to load blog author relation - required for notification filtering"
      | none => Except.error "Failed to load blog author relation - required for notification filtering"

/-- `NotificationService.createMarker` (notification.service.ts:298-361):
the save assigns the next auto-increment `markerVersion` atomically with
the insert — the version is drawn from the store's counter, never
computed by application code.  The inserted row stays committed even
when a later step throws, so the updated store is returned alongside
the `Except` outcome. -/
def createMarker (ms : MarkerStore) (blog : Blog) (now : Int) :
    MarkerStore × Except String NotificationMarker :=
  let saved : NotificationMarker :=
    { markerVersion := ms.nextVersion, blogId := blog.id,
      blog := blog, createdAt := now }
  let ms' : MarkerStore :=
    { nextVersion := ms.nextVersion + 1, markers := ms.markers ++ [saved] }
  (ms', createMarkerLoad ms' saved.markerVersion)

/-- A sequence of `createMarker` calls (each atomic at the store), with
per-call blog and timestamp.  Any interleaving of concurrent callers is
some such sequence, because the version is assigned by the store's
atomic insert. -/
def runCreates (ms : MarkerStore) :
    List (Blog × Int) → MarkerStore × List (Except String NotificationMarker)
  | [] => (ms, [])
  | (b, t) :: rest =>
    let r := createMarker ms b t
    let r' := runCreates r.1 rest
    (r'.1, r.2 :: r'.2)

/-- Versions returned by the successful calls of a run, in call order. -/
def okVersions (rs : List (Except String NotificationMarker)) : List Int :=
  rs.filterMap (fun r =>
    match r with
    | Except.ok m => some m.markerVersion
    | Except.error _ => none)

/-- Well-formedness of the marker store: every committed row's version is
below the auto-increment counter, and no two rows share a version. -/
def WFStore (ms : MarkerStore) : Prop :=
  (∀ m ∈ ms.markers, m.markerVersion < ms.nextVersion) ∧
    (ms.markers.map (fun m => m.markerVersion)).Nodup

/-- `blogRepository.findOne(\x7b where: \x7b id \x7d \x7d)` — nullable
repository lookup. -/
def blogRepoFindOne (blogs : List Blog) (id : String) : Option Blog :=
  blogs.find? (fun b => b.id = id)

/-- `BlogService.findOne` (blog.service.ts:56-67): throws
`NotFoundException` when no blog row matches, otherwise returns the
blog. -/
def blogServiceFindOne (blogs : List Blog) (id : String) : Except String Blog :=
  match blogRepoFindOne blogs id with
  | none => Except.error ("Blog with ID " ++ id ++ " not found")
  | some b => Except.ok b

/-- Persistent state touched by `BlogService.create`: the blog table and
the Redis work queue (most recently pushed first, since `lpush`
prepends). -/
structure AppState where
  blogs : List Blog
  queue : List BlogCreatedEvent
deriving DecidableEq, Repr

/-- The blog row `BlogService.create` persists, as a function of its
inputs (fields per blog.service.ts:18-23 with DB-assigned id and
timestamps). -/
def mkNewBlog (input : CreateBlogInput) (author : Author) (newId : String)
    (now : Int) : Blog :=
  { id := newId, title := input.title, content := input.content,
    createdAt := now, updatedAt := now,
    authorId := some author.id, author := some author }

/-- `BlogService.create` (blog.service.ts:18-47): save the blog row,
re-read it with its author, then enqueue the `BlogCreatedEvent`.
`enqueueBlogCreatedEvent` catches a Redis failure, logs it and
**re-throws**, and `create` does not catch, so an enqueue failure
propagates to the caller while the blog row stays committed.
`enqueueFails` models the Redis broker being unavailable. -/
def blogServiceCreate (st : AppState) (input : CreateBlogInput)
    (author : Author) (newId : String) (now : Int) (enqueueFails : Bool) :
    AppState × Except String Blog :=
  let blog : Blog := mkNewBlog input author newId now
  let blogs' := st.blogs ++ [blog]
  match blogRepoFindOne blogs' newId with
  | none => ({ st with blogs := blogs' }, Except.error "Failed to load blog with author")
  | some blogWithAuthor =>
    if enqueueFails then
      ({ st with blogs := blogs' }, Except.error "Error enqueueing blog created event")
    else
      ({ blogs := blogs',
         queue := { blogId := blogWithAuthor.id, title := blogWithAuthor.title,
                    authorId := blogWithAuthor.authorId,
                    createdAt := blogWithAuthor.createdAt } :: st.queue },
       Except.ok blogWithAuthor)

/-- `NotificationWorkerService.processBlogCreatedEvent`: look the blog up
(`BlogService.findOne` throws when it is gone — the `if (!blog)` branch
in the source is unreachable), then create the marker.  The catch block
logs and re-throws, so the error surfaces to `processQueue`; the store
component carries whatever was committed before the failure. -/
def processBlogCreatedEvent (blogs : List Blog) (ms : MarkerStore)
    (ev : BlogCreatedEvent) (now : Int) : MarkerStore × Except String Unit :=
  match blogServiceFindOne blogs ev.blogId with
  | Except.error e => (ms, Except.error e)
  | Except.ok blog =>
    let r := createMarker ms blog now
    (r.1, r.2.map (fun _ => ()))

/-- One iteration of `NotificationWorkerService.processQueue`: the try
block dequeues (the dequeued item, or `none` on timeout or queue error,
is the input here) and processes; the catch block logs and swallows any
error, and the finally block reschedules the next iteration — so an
iteration always yields a store and never an exception. -/
def processQueueIteration (blogs : List Blog) (ms : MarkerStore)
    (dequeued : Option BlogCreatedEvent) (now : Int) : MarkerStore :=
  match dequeued with
  | none => ms
  | some ev => (processBlogCreatedEvent blogs ms ev now).1

/-- The worker loop over a trace of dequeue outcomes. -/
def runWorker (blogs : List Blog) :
    MarkerStore → List (Option BlogCreatedEvent × Int) → MarkerStore
  | ms, [] => ms
  | ms, (dq, now) :: rest =>
    runWorker blogs (processQueueIteration blogs ms dq now) rest

/-- The subscription filter of `subscribeToNewMarkers`
(notification-queue.service.ts:168-189, resolver part): with no cursor
variable every payload passes; with a cursor, the payload passes exactly
when its `markerVersion` is a number strictly greater than the cursor
(a missing payload or non-numeric version is rejected). -/
def subFilter (cursorVar : Option Int) (payload : Option MarkerPayload) : Bool :=
  match cursorVar with
  | none => true
  | some c =>
    match payload with
    | none => false
    | some p =>
      match p.markerVersion with
      | none => false
      | some v => decide (c < v)

/-- `createDefaultPayload` (notification-queue.service.ts:93-100):
markerVersion 0, null blog, fresh timestamp, cursor 0. -/
def createDefaultPayload (now : Int) : NotificationMarkerPayload :=
  { markerVersion := 0, blog := none, createdAt := now, cursor := 0 }

/-- `safeResolvePayload` (notification-queue.service.ts:107-142): a
missing payload, a non-positive or non-numeric `markerVersion`, a
missing blog object or a non-`Date` `createdAt` all yield the default
payload; otherwise the payload is passed through with
`cursor := markerVersion`. -/
def safeResolvePayload (now : Int) (payload : Option MarkerPayload) :
    NotificationMarkerPayload :=
  match payload with
  | none => createDefaultPayload now
  | some p =>
    match p.markerVersion, p.blog, p.createdAt with
    | some v, some b, some t =>
      if 0 < v then
        { markerVersion := v, blog := some b, createdAt := t, cursor := v }
      else createDefaultPayload now
    | _, _, _ => createDefaultPayload now

/-- The decorator's resolve step (notification-queue.service.ts:194-210):
`safeResolvePayload`, then set `cursor := markerVersion` when the cursor
is falsy (0) and the version positive. -/
def resolveStep (now : Int) (payload : Option MarkerPayload) :
    NotificationMarkerPayload :=
  let resolved := safeResolvePayload now payload
  if resolved.cursor = 0 ∧ 0 < resolved.markerVersion then
    { resolved with cursor := resolved.markerVersion }
  else resolved

/-- What one connected listener receives when a payload is published to
the local fan-out: the resolved payload if the filter admits it,
nothing otherwise. -/
def fanOutDeliver (cursorVar : Option Int) (now : Int)
    (payload : Option MarkerPayload) : Option NotificationMarkerPayload :=
  if subFilter cursorVar payload then some (resolveStep now payload) else none

/-- The validity predicate checked by `safeResolvePayload`: positive
numeric version, blog object present, `Date` timestamp.  (Unlike the
publish boundary, no id or author check.) -/
def resolveValidPayload (p : MarkerPayload) : Prop :=
  (∃ v, p.markerVersion = some v ∧ 0 < v) ∧ p.blog ≠ none ∧ p.createdAt ≠ none

/-- Sample author. -/
def cAuthor : Author :=
  { id := "a1", email := "a1@mail", username := "anna",
    createdAt := 0, updatedAt := 0 }

/-- Sample user, registered at time 10000. -/
def cUser : User :=
  { id := "u1", email := "u1@mail", username := "uma", createdAt := 10000 }

/-- Sample user table. -/
def cUsers : List User := [cUser]

/-- Sample blog created at the user's registration instant. -/
def cBlogA : Blog :=
  { id := "b1", title := "t1", content := "c1", createdAt := 10000,
    updatedAt := 10000, authorId := some "a1", author := some cAuthor }

/-- Second sample blog, same creation instant. -/
def cBlogB : Blog :=
  { id := "b2", title := "t2", content := "c2", createdAt := 10000,
    updatedAt := 10000, authorId := some "a1", author := some cAuthor }

/-- Sample blog created well before the user registered. -/
def cBlogOld : Blog :=
  { id := "b3", title := "t3", content := "c3", createdAt := 5000,
    updatedAt := 5000, authorId := some "a1", author := some cAuthor }

/-- Marker version 4 for `cBlogA`. -/
def cMarker4 : NotificationMarker :=
  { markerVersion := 4, blogId := "b1", blog := cBlogA, createdAt := 10001 }

/-- Marker version 6 for `cBlogB`. -/
def cMarker6 : NotificationMarker :=
  { markerVersion := 6, blogId := "b2", blog := cBlogB, createdAt := 10002 }

/-- Marker version 10 for the pre-registration blog `cBlogOld`. -/
def cMarkerOld10 : NotificationMarker :=
  { markerVersion := 10, blogId := "b3", blog := cBlogOld, createdAt := 10003 }

/-- Sample marker store holding versions 4 and 6. -/
def cStore : MarkerStore := { nextVersion := 7, markers := [cMarker4, cMarker6] }

/-- Sample marker store holding version 6 and the pre-registration
version 10. -/
def c9Store : MarkerStore :=
  { nextVersion := 11, markers := [cMarker6, cMarkerOld10] }

/-- Sample cursor table: `cUser` has seen up to version 5. -/
def cCursor : List UserNotificationState :=
  [{ userId := "u1", lastSeenMarkerVersion := 5 }]

/-- Sample blog-creation input. -/
def cInput : CreateBlogInput := { title := "hello", content := "world" }

/-- Sample run of two marker creations. -/
def cRun : List (Blog × Int) := [(cBlogA, 10000), (cBlogB, 10001)]

/-- A payload that passes every publish-boundary check. -/
def cPayloadValid : MarkerPayload :=
  { markerVersion := some 5, blog := some cBlogA, createdAt := some 10000,
    cursor := some 5 }

/-- A payload with a numeric version but no blog object — invalid at both
the publish boundary and the resolve step. -/
def cPayloadInvalid : MarkerPayload :=
  { markerVersion := some 5, blog := none, createdAt := some 10000,
    cursor := none }

/-- A queue event whose blog id matches no blog row. -/
def cEvMissing : BlogCreatedEvent :=
  { blogId := "zz", title := "ghost", authorId := some "a1", createdAt := 0 }

theorem find?_append_left_none {α : Type} (p : α → Bool) (l₁ l₂ : List α)
    (h : ∀ a ∈ l₁, p a = false) : (l₁ ++ l₂).find? p = l₂.find? p := by
  induction l₁ with
  | nil => rfl
  | cons a l ih =>
    have ha := h a (by simp)
    simp only [List.cons_append, List.find?, ha]
    exact ih (fun x hx => h x (by simp [hx]))

theorem countP_le_countP_of_imp {α : Type} (p q : α → Bool) (l : List α)
    (h : ∀ a ∈ l, p a = true → q a = true) : l.countP p ≤ l.countP q := by
  induction l with
  | nil => simp
  | cons a l ih =>
    have hl := ih (fun x hx => h x (by simp [hx]))
    by_cases hp : p a = true
    · have hq := h a (by simp) hp
      simp [List.countP_cons, hp, hq]
      omega
    · simp only [List.countP_cons]
      have hp' : ¬ p a = true := hp
      by_cases hq : q a = true <;> simp [hp', hq] <;> omega

theorem findState_saveState_self (cs : List UserNotificationState)
    (s : UserNotificationState) :
    findState (saveState cs s) s.userId = some s := by
  induction cs with
  | nil => simp [saveState, findState]
  | cons t ts ih =>
    by_cases h : t.userId = s.userId
    · simp [saveState, h, findState]
    · simp only [saveState, if_neg h]
      simpa [findState, List.find?, h] using ih

theorem markAsSeen_userId (cs : List UserNotificationState) (user : User)
    (v : Int) : (markAsSeen cs user v).1.userId = user.id := by
  unfold markAsSeen
  cases findState cs user.id <;> rfl

theorem markAsSeen_snd (cs : List UserNotificationState) (user : User)
    (v : Int) : (markAsSeen cs user v).2 = saveState cs (markAsSeen cs user v).1 := by
  unfold markAsSeen
  cases findState cs user.id <;> rfl

theorem findState_markAsSeen (cs : List UserNotificationState) (user : User)
    (v : Int) :
    findState (markAsSeen cs user v).2 user.id = some (markAsSeen cs user v).1 := by
  rw [markAsSeen_snd]
  have h := findState_saveState_self cs (markAsSeen cs user v).1
  rwa [markAsSeen_userId] at h

theorem getOrCreateState_after_markAsSeen (cs : List UserNotificationState)
    (user : User) (v : Int) :
    getOrCreateState (markAsSeen cs user v).2 user.id =
      ((markAsSeen cs user v).1, (markAsSeen cs user v).2) := by
  unfold getOrCreateState
  rw [findState_markAsSeen]

/-- C3 counterexample: with no cursor row and a negative version,
`markAsSeen` stores the version itself instead of the lazily-created
`max(0, v)`: calling `markAsSeen` with version -1 on an empty cursor
table stores -1, not `max 0 (-1) = 0`. -/
theorem markAsSeen_missing_row_counterexample :
    (markAsSeen ([] : List UserNotificationState) cUser (-1)).1.lastSeenMarkerVersion = -1 ∧
    (markAsSeen ([] : List UserNotificationState) cUser (-1)).1.lastSeenMarkerVersion ≠ max 0 (-1) := by
  constructor
  · rfl
  · decide

/-- C3 (amended): when a cursor row exists, `markAsSeen(user, v)` stores
`max(current, v)`; when no row exists it stores `v` itself (which equals
`max(0, v)` exactly when `0 ≤ v`); the stored row is what a later read
finds; two calls from a fresh state store `max(v1, v2)` in either order;
and the `updateLastSeenMarkerVersion` mutation returns the updated
cursor together with the unread count recomputed on the updated
state. -/
theorem markAsSeen_cursor_max_behavior :
    (∀ cs (user : User) v s, findState cs user.id = some s →
      (markAsSeen cs user v).1.lastSeenMarkerVersion = max s.lastSeenMarkerVersion v) ∧
    (∀ cs (user : User) v, findState cs user.id = none →
      (markAsSeen cs user v).1.lastSeenMarkerVersion = v) ∧
    (∀ cs (user : User) v,
      findState (markAsSeen cs user v).2 user.id = some (markAsSeen cs user v).1) ∧
    (∀ (user : User) v, 0 ≤ v →
      (markAsSeen ([] : List UserNotificationState) user v).1.lastSeenMarkerVersion = max 0 v) ∧
    (∀ (user : User) v1 v2,
      (markAsSeen (markAsSeen ([] : List UserNotificationState) user v1).2 user v2).1.lastSeenMarkerVersion
        = max v1 v2) ∧
    (∀ ms cs us (user : User) v,
      (updateLastSeenMarkerVersion ms cs us user v).1.count =
        (getUnreadCount ms (markAsSeen cs user v).2 us user).1 ∧
      (updateLastSeenMarkerVersion ms cs us user v).1.lastSeenMarkerVersion =
        (markAsSeen cs user v).1.lastSeenMarkerVersion) := by
  refine ⟨?_, ?_, ?_, ?_, ?_, ?_⟩
  · intro cs user v s h
    unfold markAsSeen
    rw [h]
  · intro cs user v h
    unfold markAsSeen
    rw [h]
  · intro cs user v
    exact findState_markAsSeen cs user v
  · intro user v hv
    have h : findState ([] : List UserNotificationState) user.id = none := rfl
    unfold markAsSeen
    rw [h]
    simp [max_eq_right hv]
  · intro user v1 v2
    have e1 : markAsSeen ([] : List UserNotificationState) user v1 =
        ({ userId := user.id, lastSeenMarkerVersion := v1 },
         [{ userId := user.id, lastSeenMarkerVersion := v1 }]) := rfl
    rw [e1]
    have e2 : findState [{ userId := user.id, lastSeenMarkerVersion := v1 }] user.id =
        some { userId := user.id, lastSeenMarkerVersion := v1 } := by
      simp [findState]
    unfold markAsSeen
    rw [e2]
  · intro ms cs us user v
    exact ⟨rfl, rfl⟩

/-- C3 witness: with the sample cursor row at 5, marking version 3 as
seen stores `max 5 3`. -/
theorem markAsSeen_cursor_max_behavior_witness :
    (markAsSeen cCursor cUser 3).1.lastSeenMarkerVersion =
      max (5 : Int) 3 :=
  markAsSeen_cursor_max_behavior.1 cCursor cUser 3
    { userId := "u1", lastSeenMarkerVersion := 5 } (by rfl)

theorem blogRepoFindOne_eq_none (blogs : List Blog) (id : String)
    (h : ∀ b ∈ blogs, b.id ≠ id) : blogRepoFindOne blogs id = none := by
  unfold blogRepoFindOne
  rw [List.find?_eq_none]
  intro b hb
  simp [h b hb]

/-- C7: a dequeued event whose blog id resolves to no blog row leaves the
marker store untouched — no marker row is created and the version
counter is not advanced — and the worker loop goes on to process the
remaining trace exactly as if the bad event had never been dequeued.
(`processQueue` catches, logs and swallows every processing error, so a
single bad event never terminates the loop.) -/
theorem worker_missing_blog_skips_and_continues :
    (∀ (blogs : List Blog) ms (ev : BlogCreatedEvent) now,
      (∀ b ∈ blogs, b.id ≠ ev.blogId) →
      processQueueIteration blogs ms (some ev) now = ms) ∧
    (∀ (blogs : List Blog) ms (ev : BlogCreatedEvent) now rest,
      (∀ b ∈ blogs, b.id ≠ ev.blogId) →
      runWorker blogs ms ((some ev, now) :: rest) = runWorker blogs ms rest) := by
  have key : ∀ (blogs : List Blog) ms (ev : BlogCreatedEvent) now,
      (∀ b ∈ blogs, b.id ≠ ev.blogId) →
      processQueueIteration blogs ms (some ev) now = ms := by
    intro blogs ms ev now h
    simp only [processQueueIteration, processBlogCreatedEvent, blogServiceFindOne,
      blogRepoFindOne_eq_none blogs ev.blogId h]
  refine ⟨key, ?_⟩
  intro blogs ms ev now rest h
  show runWorker blogs (processQueueIteration blogs ms (some ev) now) rest = runWorker blogs ms rest
  rw [key blogs ms ev now h]

/-- C7 witness: an event for the unknown blog id "zz" leaves the sample
store unchanged. -/
theorem worker_missing_blog_skips_and_continues_witness :
    processQueueIteration [cBlogA] cStore (some cEvMissing) 0 = cStore :=
  worker_missing_blog_skips_and_continues.1 [cBlogA] cStore cEvMissing 0 (by decide)

/-- C8: for a payload carrying a numeric `markerVersion`, a listener that
supplied a cursor receives it exactly when the version is strictly
greater than the cursor, and a listener without a cursor receives every
payload published while it is connected. -/
theorem subscription_cursor_filter :
    (∀ (c : Int) (p : MarkerPayload) (v : Int) (now : Int),
      p.markerVersion = some v →
      ((fanOutDeliver (some c) now (some p)).isSome ↔ c < v)) ∧
    (∀ (p : Option MarkerPayload) (now : Int),
      fanOutDeliver none now p = some (resolveStep now p)) := by
  constructor
  · intro c p v now h
    simp only [fanOutDeliver, subFilter, h]
    by_cases hcv : c < v
    · simp [hcv]
    · simp [hcv]
  · intro p now
    simp only [fanOutDeliver, subFilter, if_pos]

/-- C8 witness: with cursor 3 the sample payload (version 5) is
delivered. -/
theorem subscription_cursor_filter_witness :
    (fanOutDeliver (some 3) 0 (some cPayloadValid)).isSome ↔ (3 : Int) < 5 :=
  subscription_cursor_filter.1 3 cPayloadValid 5 0 (by rfl)

theorem safeResolvePayload_invalid (p : MarkerPayload) (now : Int)
    (h : ¬ resolveValidPayload p) :
    safeResolvePayload now (some p) = createDefaultPayload now := by
  obtain ⟨mv, bl, ca, cu⟩ := p
  cases mv with
  | none => cases bl <;> cases ca <;> rfl
  | some v =>
    cases bl with
    | none => cases ca <;> rfl
    | some b =>
      cases ca with
      | none => rfl
      | some t =>
        by_cases hv : 0 < v
        · exact absurd ⟨⟨v, rfl, hv⟩, by simp [resolveValidPayload], by simp [resolveValidPayload]⟩ h
        · simp [safeResolvePayload, hv]

/-- C10: an invalid payload (no positive numeric `markerVersion`, no blog
object, or no `Date` timestamp) reaching the subscription layer is not
dropped for listeners without a cursor — they receive the substituted
default payload with `markerVersion` 0, `cursor` 0, and a null blog —
while a listener with a cursor is shielded exactly because the cursor
filter returns `false` for a non-numeric `markerVersion` or one not
strictly greater than the cursor. -/
theorem invalid_payload_default_delivery :
    (∀ (p : MarkerPayload) (now : Int), ¬ resolveValidPayload p →
      fanOutDeliver none now (some p) = some (createDefaultPayload now)) ∧
    (∀ now : Int, fanOutDeliver none now none = some (createDefaultPayload now)) ∧
    (∀ (c : Int) (p : MarkerPayload) (now : Int), p.markerVersion = none →
      fanOutDeliver (some c) now (some p) = none) ∧
    (∀ (c : Int) (p : MarkerPayload) (v : Int) (now : Int),
      p.markerVersion = some v → v ≤ c →
      fanOutDeliver (some c) now (some p) = none) := by
  refine ⟨?_, ?_, ?_, ?_⟩
  · intro p now h
    have hr : resolveStep now (some p) = createDefaultPayload now := by
      simp only [resolveStep, safeResolvePayload_invalid p now h]
      simp [createDefaultPayload]
    simp only [fanOutDeliver, subFilter, if_pos, hr]
  · intro now
    simp only [fanOutDeliver, subFilter, if_pos, resolveStep, safeResolvePayload]
    simp [createDefaultPayload]
  · intro c p now h
    simp only [fanOutDeliver, subFilter, h]
    simp
  · intro c p v now h hvc
    have hcv : ¬ c < v := by omega
    simp only [fanOutDeliver, subFilter, h]
    simp [hcv]

/-- C10 witness: the sample invalid payload (numeric version 5 but no
blog) is delivered to a cursorless listener as the default payload. -/
theorem invalid_payload_default_delivery_witness :
    fanOutDeliver none 0 (some cPayloadInvalid) = some (createDefaultPayload 0) :=
  invalid_payload_default_delivery.1 cPayloadInvalid 0
    (by
      rintro ⟨-, hb, -⟩
      exact hb rfl)

/-- C6: the publish boundary validates every payload before sending —
positive numeric `markerVersion`, blog object with non-empty id, author
identifier resolvable from `blog.author.id` or `blog.authorId`, `Date`
timestamp — succeeding exactly on valid payloads; every payload failing
a check is rejected with a thrown error surfaced to the caller, before
anything reaches the Redis leg, never silently dropped. -/
theorem safePublishMarker_validation :
    (∀ p, safePublishMarker p = Except.ok () ↔ validPublishPayload p) ∧
    (∀ p, ¬ validPublishPayload p → (safePublishMarker p).isOk = false) ∧
    (∀ p channel, ¬ validPublishPayload p →
      (publishMarkerAndRedis p channel).isOk = false) := by
  have main : ∀ p, safePublishMarker p = Except.ok () ↔ validPublishPayload p := by
    intro p
    constructor
    · intro hok
      cases p with
      | none => simp [safePublishMarker] at hok
      | some payload =>
        obtain ⟨mv, bl, ca, cu⟩ := payload
        cases mv with
        | none => simp [safePublishMarker] at hok
        | some v =>
          by_cases hv : v ≤ 0
          · simp [safePublishMarker, hv] at hok
          · cases bl with
            | none => simp [safePublishMarker, hv] at hok
            | some b =>
              by_cases hid : b.id = ""
              · simp [safePublishMarker, hv, hid] at hok
              · by_cases hauth :
                  strTruthy (jsOrStr (b.author.map (fun a => a.id)) b.authorId) = true
                · cases ca with
                  | none => simp [safePublishMarker, hv, hid, hauth] at hok
                  | some t =>
                    exact ⟨{ markerVersion := some v, blog := some b,
                             createdAt := some t, cursor := cu }, rfl,
                      ⟨v, rfl, by omega⟩, ⟨b, rfl, hid, hauth⟩, ⟨t, rfl⟩⟩
                · have hauth' :
                    strTruthy (jsOrStr (b.author.map (fun a => a.id)) b.authorId) = false := by
                    revert hauth
                    cases strTruthy (jsOrStr (b.author.map (fun a => a.id)) b.authorId) <;> simp
                  simp [safePublishMarker, hv, hid, hauth'] at hok
    · rintro ⟨payload, rfl, ⟨v, hmv, hv⟩, ⟨b, hb, hid, hauth⟩, ⟨t, hc⟩⟩
      obtain ⟨mv, bl, ca, cu⟩ := payload
      simp only at hmv hb hc
      subst hmv
      subst hb
      subst hc
      have hv' : ¬ v ≤ 0 := by omega
      simp [safePublishMarker, hv', hid, hauth]
  refine ⟨main, ?_, ?_⟩
  · intro p h
    cases hok : safePublishMarker p with
    | ok u =>
      cases u
      exact absurd ((main p).mp hok) h
    | error e => simp [Except.isOk, Except.toBool]
  · intro p channel h
    cases hok : safePublishMarker p with
    | ok u =>
      cases u
      exact absurd ((main p).mp hok) h
    | error e => simp [publishMarkerAndRedis, hok, Except.isOk, Except.toBool]

/-- C6 witness: the sample valid payload passes every check and is
published, and since it is valid the iff yields success. -/
theorem safePublishMarker_validation_witness :
    safePublishMarker (some cPayloadValid) = Except.ok () ↔
      validPublishPayload (some cPayloadValid) :=
  safePublishMarker_validation.1 (some cPayloadValid)

/-- C1 counterexample: with the notification broker down, the enqueue of
the `BlogCreatedEvent` fails and `BlogService.create` returns that error
to its caller even though the blog row was durably written — the
failure is not swallowed, contradicting the claim. -/
theorem blogCreate_counterexample :
    (blogServiceCreate { blogs := [], queue := [] } cInput cAuthor "b9" 0 true).2 =
      Except.error "Error enqueueing blog created event" ∧
    (blogServiceCreate { blogs := [], queue := [] } cInput cAuthor "b9" 0 true).1.blogs =
      [mkNewBlog cInput cAuthor "b9" 0] := by
  constructor <;> rfl

/-- C1 (amended): when the blog row is durably written and enqueueing the
`BlogCreatedEvent` fails, the failure is logged and **re-thrown**:
`BlogService.create` propagates the enqueue error to its caller while
the blog row stays committed and nothing is enqueued; only when the
enqueue succeeds does `create` return the blog, with the event pushed
onto the queue. -/
theorem blogCreate_enqueue_failure_propagates :
    ∀ st (input : CreateBlogInput) (author : Author) newId now,
      (∀ b ∈ st.blogs, b.id ≠ newId) →
      (blogServiceCreate st input author newId now true).1.blogs =
          st.blogs ++ [mkNewBlog input author newId now] ∧
      (blogServiceCreate st input author newId now true).1.queue = st.queue ∧
      (blogServiceCreate st input author newId now true).2 =
          Except.error "Error enqueueing blog created event" ∧
      (blogServiceCreate st input author newId now false).2 =
          Except.ok (mkNewBlog input author newId now) ∧
      (blogServiceCreate st input author newId now false).1.queue =
          { blogId := newId, title := input.title,
            authorId := some author.id, createdAt := now } :: st.queue := by
  intro st input author newId now h
  have hfind : blogRepoFindOne (st.blogs ++ [mkNewBlog input author newId now]) newId
      = some (mkNewBlog input author newId now) := by
    unfold blogRepoFindOne
    rw [find?_append_left_none _ _ _ (fun b hb => by simp [h b hb])]
    simp [mkNewBlog]
  simp only [blogServiceCreate, hfind]
  refine ⟨rfl, rfl, rfl, rfl, rfl⟩

/-- C1 amended-claim witness: at the sample input, the failing-enqueue
run throws while the succeeding run returns the blog. -/
theorem blogCreate_enqueue_failure_propagates_witness :
    (blogServiceCreate { blogs := [], queue := [] } cInput cAuthor "b8" 1 true).2 =
        Except.error "Error enqueueing blog created event" ∧
    (blogServiceCreate { blogs := [], queue := [] } cInput cAuthor "b8" 1 false).2 =
        Except.ok (mkNewBlog cInput cAuthor "b8" 1) := by
  have h := blogCreate_enqueue_failure_propagates { blogs := [], queue := [] }
    cInput cAuthor "b8" 1 (by simp)
  exact ⟨h.2.2.1, h.2.2.2.1⟩

theorem mem_insertByVersionDesc (m x : NotificationMarker)
    (l : List NotificationMarker) :
    x ∈ insertByVersionDesc m l ↔ x = m ∨ x ∈ l := by
  induction l with
  | nil => simp [insertByVersionDesc]
  | cons a l ih =>
    by_cases h : a.markerVersion ≤ m.markerVersion
    · simp [insertByVersionDesc, h]
    · simp [insertByVersionDesc, h, ih]
      tauto

theorem mem_sortByVersionDesc (x : NotificationMarker)
    (l : List NotificationMarker) :
    x ∈ sortByVersionDesc l ↔ x ∈ l := by
  induction l with
  | nil => simp [sortByVersionDesc]
  | cons a l ih =>
    simp [sortByVersionDesc, mem_insertByVersionDesc, ih]

theorem sorted_insertByVersionDesc (m : NotificationMarker)
    (l : List NotificationMarker) (h : VersionSortedDesc l) :
    VersionSortedDesc (insertByVersionDesc m l) := by
  induction l with
  | nil => simp [insertByVersionDesc, VersionSortedDesc]
  | cons a l ih =>
    rw [VersionSortedDesc, List.pairwise_cons] at h
    by_cases hcmp : a.markerVersion ≤ m.markerVersion
    · rw [VersionSortedDesc]
      simp only [insertByVersionDesc, if_pos hcmp]
      rw [List.pairwise_cons]
      constructor
      · intro b hb
        rcases List.mem_cons.mp hb with hb | hb
        · exact hb ▸ hcmp
        · exact le_trans (h.1 b hb) hcmp
      · rw [List.pairwise_cons]
        exact h
    · rw [VersionSortedDesc]
      simp only [insertByVersionDesc, if_neg hcmp]
      rw [List.pairwise_cons]
      constructor
      · intro b hb
        rcases (mem_insertByVersionDesc m b l).mp hb with hb | hb
        · subst hb
          omega
        · exact h.1 b hb
      · exact ih h.2

theorem sorted_sortByVersionDesc (l : List NotificationMarker) :
    VersionSortedDesc (sortByVersionDesc l) := by
  induction l with
  | nil => exact List.Pairwise.nil
  | cons a l ih => exact sorted_insertByVersionDesc a (sortByVersionDesc l) ih

theorem length_insertByVersionAsc (m : NotificationMarker)
    (l : List NotificationMarker) :
    (insertByVersionAsc m l).length = l.length + 1 := by
  induction l with
  | nil => rfl
  | cons a l ih =>
    by_cases h : m.markerVersion ≤ a.markerVersion
    · simp [insertByVersionAsc, h]
    · simp [insertByVersionAsc, h, ih]

theorem length_sortByVersionAsc (l : List NotificationMarker) :
    (sortByVersionAsc l).length = l.length := by
  induction l with
  | nil => rfl
  | cons a l ih => simp [sortByVersionAsc, length_insertByVersionAsc, ih]

theorem mem_insertByVersionAsc (m x : NotificationMarker)
    (l : List NotificationMarker) :
    x ∈ insertByVersionAsc m l ↔ x = m ∨ x ∈ l := by
  induction l with
  | nil => simp [insertByVersionAsc]
  | cons a l ih =>
    by_cases h : m.markerVersion ≤ a.markerVersion
    · simp [insertByVersionAsc, h]
    · simp [insertByVersionAsc, h, ih]
      tauto

theorem mem_sortByVersionAsc (x : NotificationMarker)
    (l : List NotificationMarker) :
    x ∈ sortByVersionAsc l ↔ x ∈ l := by
  induction l with
  | nil => simp [sortByVersionAsc]
  | cons a l ih =>
    simp [sortByVersionAsc, mem_insertByVersionAsc, ih]

/-- C5: `getAllMarkers(user)` returns exactly the markers whose blog was
created strictly after the freshly re-read `user.createdAt` minus one
second, ordered descending by `markerVersion`; the result depends on the
caller only through `user.id` (the filter is recomputed against the
stored `createdAt`, not a cached claim); in particular a marker for a
blog created 2 seconds before registration is never returned, while one
created 1 ms after registration is. -/
theorem getAllMarkers_registration_horizon :
    (∀ ms us (user : User) freshUser, findUser us user.id = some freshUser →
      ∀ m, m ∈ getAllMarkers ms us user ↔
        m ∈ ms.markers ∧ freshUser.createdAt - 1000 < m.blog.createdAt) ∧
    (∀ ms us (user : User), VersionSortedDesc (getAllMarkers ms us user)) ∧
    (∀ ms us (u1 u2 : User), u1.id = u2.id →
      getAllMarkers ms us u1 = getAllMarkers ms us u2) ∧
    (∀ ms us (user : User) freshUser m, findUser us user.id = some freshUser →
      m ∈ ms.markers →
      (m.blog.createdAt = freshUser.createdAt - 2000 →
        m ∉ getAllMarkers ms us user) ∧
      (m.blog.createdAt = freshUser.createdAt + 1 →
        m ∈ getAllMarkers ms us user)) := by
  have main : ∀ ms us (user : User) freshUser, findUser us user.id = some freshUser →
      ∀ m, m ∈ getAllMarkers ms us user ↔
        m ∈ ms.markers ∧ freshUser.createdAt - 1000 < m.blog.createdAt := by
    intro ms us user freshUser h m
    simp only [getAllMarkers, h, mem_sortByVersionDesc, List.mem_filter,
      decide_eq_true_eq]
  refine ⟨main, ?_, ?_, ?_⟩
  · intro ms us user
    cases h : findUser us user.id with
    | none => simp only [getAllMarkers, h]; exact List.Pairwise.nil
    | some freshUser =>
      simp only [getAllMarkers, h]
      exact sorted_sortByVersionDesc _
  · intro ms us u1 u2 h12
    simp only [getAllMarkers, h12]
  · intro ms us user freshUser m h hm
    constructor
    · intro hdate hmem
      have := ((main ms us user freshUser h m).mp hmem).2
      omega
    · intro hdate
      exact (main ms us user freshUser h m).mpr ⟨hm, by omega⟩

/-- C5 witness: in the sample store, marker 6 (blog created exactly at
registration time) is visible to the sample user. -/
theorem getAllMarkers_registration_horizon_witness :
    cMarker6 ∈ getAllMarkers cStore cUsers cUser ↔
      cMarker6 ∈ cStore.markers ∧ cUser.createdAt - 1000 < cMarker6.blog.createdAt :=
  getAllMarkers_registration_horizon.1 cStore cUsers cUser cUser (by rfl) cMarker6

/-- C9: `getUnreadMarkers` applies only the version filter and not the
registration horizon, so the unread count — which applies both — never
exceeds the number of unread markers, and on the sample state it is
strictly smaller, the unread list containing a marker whose blog
predates the user's registration horizon. -/
theorem unreadCount_le_unreadMarkers :
    (∀ ms cs us (user : User),
      (getUnreadCount ms cs us user).1 ≤ (getUnreadMarkers ms cs user).1.length) ∧
    ((getUnreadCount c9Store cCursor cUsers cUser).1 <
        (getUnreadMarkers c9Store cCursor cUser).1.length ∧
      cMarkerOld10 ∈ (getUnreadMarkers c9Store cCursor cUser).1 ∧
      cMarkerOld10.blog.createdAt ≤ cUser.createdAt - 1000) := by
  constructor
  · intro ms cs us user
    cases h : findUser us user.id with
    | none => simp [getUnreadCount, h]
    | some freshUser =>
      simp only [getUnreadCount, getUnreadMarkers, h]
      rw [length_sortByVersionAsc, ← List.countP_eq_length_filter]
      apply countP_le_countP_of_imp
      intro a _ hpa
      simp only [decide_eq_true_eq] at hpa ⊢
      exact hpa.1
  · refine ⟨by decide, by decide, by decide⟩

theorem markAsSeen_row_exists_version (cs : List UserNotificationState)
    (user : User) (v : Int) (s : UserNotificationState)
    (hs : findState cs user.id = some s) :
    (markAsSeen cs user v).1.lastSeenMarkerVersion = max s.lastSeenMarkerVersion v := by
  unfold markAsSeen
  rw [hs]

/-- C4 counterexample: with the stored cursor at 5, calling
`markSeen(user, 3)` keeps the cursor at `max(5,3) = 5`, so the
recomputed unread count is 1 (only marker 6), not the 2 markers
(versions 4 and 6) with version > 3 satisfying the horizon filter that
the claim predicts. -/
theorem unreadCount_after_markAsSeen_counterexample :
    (getUnreadCount cStore (markAsSeen cCursor cUser 3).2 cUsers cUser).1 = 1 ∧
    (cStore.markers.filter (fun m =>
      decide ((3 : Int) < m.markerVersion ∧
        cUser.createdAt - 1000 < m.blog.createdAt))).length = 2 ∧
    (getUnreadCount cStore (markAsSeen cCursor cUser 3).2 cUsers cUser).1 ≠
      (cStore.markers.filter (fun m =>
        decide ((3 : Int) < m.markerVersion ∧
          cUser.createdAt - 1000 < m.blog.createdAt))).length := by
  refine ⟨by decide, by decide, by decide⟩

/-- C4 (amended): `getUnreadCount(user)` equals the number of markers
with `markerVersion` above the stored cursor (lazily created at 0) whose
blog was created after the freshly re-read `user.createdAt` minus one
second; immediately after `markSeen(user, V)` the recomputed count
equals the number of markers with version above the **newly stored**
cursor — `max(current, V)` when a row existed, `V` itself otherwise —
satisfying the horizon filter, not necessarily the count above `V`. -/
theorem getUnreadCount_filters :
    (∀ ms cs us (user : User) freshUser, findUser us user.id = some freshUser →
      (getUnreadCount ms cs us user).1 =
        (ms.markers.filter (fun m =>
          decide ((getOrCreateState cs user.id).1.lastSeenMarkerVersion < m.markerVersion ∧
            freshUser.createdAt - 1000 < m.blog.createdAt))).length) ∧
    (∀ ms cs us (user : User) freshUser v, findUser us user.id = some freshUser →
      (getUnreadCount ms (markAsSeen cs user v).2 us user).1 =
        (ms.markers.filter (fun m =>
          decide ((markAsSeen cs user v).1.lastSeenMarkerVersion < m.markerVersion ∧
            freshUser.createdAt - 1000 < m.blog.createdAt))).length) ∧
    (∀ ms cs us (user : User) freshUser v s, findUser us user.id = some freshUser →
      findState cs user.id = some s →
      (getUnreadCount ms (markAsSeen cs user v).2 us user).1 =
        (ms.markers.filter (fun m =>
          decide (max s.lastSeenMarkerVersion v < m.markerVersion ∧
            freshUser.createdAt - 1000 < m.blog.createdAt))).length) := by
  have part1 : ∀ ms cs us (user : User) freshUser, findUser us user.id = some freshUser →
      (getUnreadCount ms cs us user).1 =
        (ms.markers.filter (fun m =>
          decide ((getOrCreateState cs user.id).1.lastSeenMarkerVersion < m.markerVersion ∧
            freshUser.createdAt - 1000 < m.blog.createdAt))).length := by
    intro ms cs us user freshUser h
    simp only [getUnreadCount, h]
    exact List.countP_eq_length_filter _ _
  have part2 : ∀ ms cs us (user : User) freshUser v, findUser us user.id = some freshUser →
      (getUnreadCount ms (markAsSeen cs user v).2 us user).1 =
        (ms.markers.filter (fun m =>
          decide ((markAsSeen cs user v).1.lastSeenMarkerVersion < m.markerVersion ∧
            freshUser.createdAt - 1000 < m.blog.createdAt))).length := by
    intro ms cs us user freshUser v h
    have := part1 ms (markAsSeen cs user v).2 us user freshUser h
    rwa [getOrCreateState_after_markAsSeen] at this
  refine ⟨part1, part2, ?_⟩
  intro ms cs us user freshUser v s h hs
  have h2 := part2 ms cs us user freshUser v h
  rwa [markAsSeen_row_exists_version cs user v s hs] at h2

/-- C4 amended-claim witness: on the sample state (cursor row at 5), the
unread count equals the number of markers above the stored cursor within
the horizon. -/
theorem getUnreadCount_filters_witness :
    (getUnreadCount cStore cCursor cUsers cUser).1 =
      (cStore.markers.filter (fun m =>
        decide ((getOrCreateState cCursor cUser.id).1.lastSeenMarkerVersion < m.markerVersion ∧
          cUser.createdAt - 1000 < m.blog.createdAt))).length :=
  getUnreadCount_filters.1 cStore cCursor cUsers cUser cUser (by rfl)

theorem except_map_ok {ε α β : Type} (f : α → β) (r : Except ε α) (b : β)
    (h : r.map f = Except.ok b) : ∃ a, r = Except.ok a ∧ b = f a := by
  cases r with
  | error e => simp [Except.map] at h
  | ok a =>
    simp [Except.map] at h
    exact ⟨a, rfl, h.symm⟩

theorem findByVersion_some (ms : MarkerStore) (v : Int) (m : NotificationMarker)
    (h : findByVersion ms v = some m) :
    m.markerVersion = v ∧ m ∈ ms.markers := by
  unfold findByVersion at h
  exact ⟨by simpa using List.find?_some h, List.mem_of_find?_eq_some h⟩

theorem finishMarker_ok_version (mk : NotificationMarker) (a : Author)
    (m : NotificationMarker) (h : finishMarker mk a = Except.ok m) :
    m.markerVersion = mk.markerVersion := by
  simp only [finishMarker] at h
  obtain ⟨u, hu, hm⟩ := except_map_ok _ _ _ h
  rw [hm]

theorem createMarkerLoad_ok_version (ms' : MarkerStore) (v : Int)
    (m : NotificationMarker) (h : createMarkerLoad ms' v = Except.ok m) :
    m.markerVersion = v := by
  unfold createMarkerLoad at h
  cases hf : findByVersion ms' v with
  | none =>
    rw [hf] at h
    cases h
  | some mk =>
    rw [hf] at h
    cases ha : mk.blog.author with
    | some a =>
      simp only [ha] at h
      rw [finishMarker_ok_version mk a m h]
      exact (findByVersion_some ms' v mk hf).1
    | none => simp [ha, hf] at h

theorem createMarker_fst (ms : MarkerStore) (b : Blog) (t : Int) :
    (createMarker ms b t).1 =
      { nextVersion := ms.nextVersion + 1,
        markers := ms.markers ++
          [{ markerVersion := ms.nextVersion, blogId := b.id,
             blog := b, createdAt := t }] } := rfl

theorem createMarker_ok_version (ms : MarkerStore) (b : Blog) (t : Int)
    (m : NotificationMarker) (h : (createMarker ms b t).2 = Except.ok m) :
    m.markerVersion = ms.nextVersion :=
  createMarkerLoad_ok_version (createMarker ms b t).1 ms.nextVersion m h

theorem WFStore_createMarker (ms : MarkerStore) (b : Blog) (t : Int)
    (h : WFStore ms) : WFStore (createMarker ms b t).1 := by
  obtain ⟨hlt, hnd⟩ := h
  constructor
  · intro m hm
    rw [createMarker_fst] at hm ⊢
    simp only [List.mem_append, List.mem_singleton] at hm
    rcases hm with hm | hm
    · have := hlt m hm
      simp only
      omega
    · subst hm
      simp only
      omega
  · rw [createMarker_fst]
    simp only [List.map_append, List.map_cons, List.map_nil]
    rw [List.nodup_append]
    refine ⟨hnd, List.nodup_singleton _, ?_⟩
    intro x hx hx2
    simp only [List.mem_singleton] at hx2
    simp only [List.mem_map] at hx
    obtain ⟨m, hm, hxm⟩ := hx
    have := hlt m hm
    omega

theorem okVersions_cons_error (e : String)
    (rs : List (Except String NotificationMarker)) :
    okVersions (Except.error e :: rs) = okVersions rs := rfl

theorem okVersions_cons_ok (m : NotificationMarker)
    (rs : List (Except String NotificationMarker)) :
    okVersions (Except.ok m :: rs) = m.markerVersion :: okVersions rs := rfl

theorem runCreates_invariants (l : List (Blog × Int)) :
    ∀ ms : MarkerStore, WFStore ms →
      (runCreates ms l).1.nextVersion = ms.nextVersion + l.length ∧
      (runCreates ms l).1.markers.length = ms.markers.length + l.length ∧
      WFStore (runCreates ms l).1 ∧
      (∀ m ∈ ms.markers, m ∈ (runCreates ms l).1.markers) ∧
      (∀ v ∈ okVersions (runCreates ms l).2,
        ms.nextVersion ≤ v ∧ v < (runCreates ms l).1.nextVersion) ∧
      (okVersions (runCreates ms l).2).Pairwise (fun a b => a < b) ∧
      (∀ v : Int, ms.nextVersion ≤ v → v < (runCreates ms l).1.nextVersion →
        ∃ row ∈ (runCreates ms l).1.markers, row.markerVersion = v) := by
  induction l with
  | nil =>
    intro ms hwf
    refine ⟨by simp [runCreates], by simp [runCreates], hwf, ?_, ?_, ?_, ?_⟩
    · intro m hm
      simpa [runCreates] using hm
    · intro v hv
      simp [runCreates, okVersions] at hv
    · simp [runCreates, okVersions]
    · intro v h1 h2
      simp only [runCreates] at h2
      exact absurd h1 (by omega)
  | cons p rest ih =>
    intro ms hwf
    obtain ⟨b, t⟩ := p
    have hstep : runCreates ms ((b, t) :: rest) =
        ((runCreates (createMarker ms b t).1 rest).1,
         (createMarker ms b t).2 :: (runCreates (createMarker ms b t).1 rest).2) := rfl
    have hnext1 : (createMarker ms b t).1.nextVersion = ms.nextVersion + 1 := by
      rw [createMarker_fst]
    have hlen1 : (createMarker ms b t).1.markers.length = ms.markers.length + 1 := by
      rw [createMarker_fst]
      simp
    have hwf1 := WFStore_createMarker ms b t hwf
    have ihh := ih (createMarker ms b t).1 hwf1
    rw [hstep]
    refine ⟨?_, ?_, ihh.2.2.1, ?_, ?_, ?_, ?_⟩
    · rw [ihh.1, hnext1]
      simp only [List.length_cons]
      push_cast
      omega
    · rw [ihh.2.1, hlen1]
      simp only [List.length_cons]
      omega
    · intro m hm
      apply ihh.2.2.2.1
      rw [createMarker_fst]
      simp [hm]
    · intro v hv
      cases hr : (createMarker ms b t).2 with
      | error e =>
        rw [hr, okVersions_cons_error] at hv
        have := ihh.2.2.2.2.1 v hv
        constructor
        · omega
        · exact this.2
      | ok m =>
        rw [hr, okVersions_cons_ok] at hv
        rcases List.mem_cons.mp hv with hv | hv
        · have hmv := createMarker_ok_version ms b t m hr
          rw [ihh.1]
          subst hv
          rw [hmv]
          constructor
          · omega
          · rw [hnext1]
            omega
        · have := ihh.2.2.2.2.1 v hv
          constructor
          · omega
          · exact this.2
    · cases hr : (createMarker ms b t).2 with
      | error e => exact ihh.2.2.2.2.2.1
      | ok m =>
        refine List.Pairwise.cons ?_ ihh.2.2.2.2.2.1
        intro v hv
        have hb := ihh.2.2.2.2.1 v hv
        have hmv := createMarker_ok_version ms b t m hr
        rw [hmv]
        omega
    · intro v h1 h2
      by_cases hv : v < (createMarker ms b t).1.nextVersion
      · have hveq : v = ms.nextVersion := by omega
        refine ⟨{ markerVersion := ms.nextVersion, blogId := b.id,
                  blog := b, createdAt := t }, ?_, hveq.symm⟩
        apply ihh.2.2.2.1
        rw [createMarker_fst]
        simp
      · exact ihh.2.2.2.2.2.2 v (by omega) h2

/-- C2: over any sequence of `createMarker` calls — any interleaving of
concurrent callers is such a sequence, since the version is assigned by
the store's atomic auto-increment insert, never computed
application-side — the versions returned by the successful calls are
strictly increasing with no repeats, no two committed marker rows share
a version, every successful call's version has a committed row, each
call commits exactly one row while advancing the counter by one, and
every allocated version in the consumed range has a committed row. -/
theorem createMarker_version_invariants :
    ∀ (ms : MarkerStore) (l : List (Blog × Int)), WFStore ms →
      (okVersions (runCreates ms l).2).Pairwise (fun a b => a < b) ∧
      ((runCreates ms l).1.markers.map (fun m => m.markerVersion)).Nodup ∧
      (∀ r ∈ (runCreates ms l).2, ∀ m, r = Except.ok m →
        ∃ row ∈ (runCreates ms l).1.markers,
          row.markerVersion = m.markerVersion) ∧
      (runCreates ms l).1.nextVersion = ms.nextVersion + l.length ∧
      (runCreates ms l).1.markers.length = ms.markers.length + l.length ∧
      (∀ v : Int, ms.nextVersion ≤ v → v < (runCreates ms l).1.nextVersion →
        ∃ row ∈ (runCreates ms l).1.markers, row.markerVersion = v) := by
  intro ms l hwf
  have h := runCreates_invariants l ms hwf
  refine ⟨h.2.2.2.2.2.1, h.2.2.1.2, ?_, h.1, h.2.1, h.2.2.2.2.2.2⟩
  intro r hr m hm
  have hv : m.markerVersion ∈ okVersions (runCreates ms l).2 := by
    unfold okVersions
    exact List.mem_filterMap.mpr ⟨r, hr, by rw [hm]⟩
  have hb := h.2.2.2.2.1 m.markerVersion hv
  exact h.2.2.2.2.2.2 m.markerVersion hb.1 hb.2

/-- C2 witness: starting from the empty store, creating markers for the
two sample blogs yields strictly increasing versions and a
duplicate-free marker table. -/
theorem createMarker_version_invariants_witness :
    (okVersions (runCreates { nextVersion := 1, markers := [] } cRun).2).Pairwise
        (fun a b => a < b) ∧
    ((runCreates { nextVersion := 1, markers := [] } cRun).1.markers.map
        (fun m => m.markerVersion)).Nodup := by
  have h := createMarker_version_invariants { nextVersion := 1, markers := [] }
    cRun (by constructor <;> simp [WFStore])
  exact ⟨h.1, h.2.1⟩

end BlogNotification
